import Mathlib

/-!
Verification of `splunk_csv_importer.py`.

The program is modelled shallowly:
* `csv_to_dict` mirrors the Python function of the same name, including the
  semantics of Python dictionaries (insertion order, overwrite on duplicate
  key) used by `csv.DictReader` rows and by the dict comprehension.
* `backup_lookup_name` mirrors the f-string
  `f"{lookup_name.split('.')[0]}_backup_{timestamp}.csv"`.
* Query submission is modelled by a writer/except structure `SearchOutcome`
  recording the attempted queries and the printed lines; the remote Splunk
  service is an oracle `Env` mapping each SPL string either to the decoded
  entry stream or to an authentication failure.
-/

/-! ## Python dictionary primitives (insertion-ordered, overwrite on duplicate) -/

/-- Insertion into a Python dict, modelled as an insertion-ordered
association list: an existing key keeps its position and has its value
overwritten; a new key goes to the end. -/
def pyDictInsert {α : Type} (d : List (String × α)) (k : String) (v : α) :
    List (String × α) :=
  if d.any (fun p => p.1 == k) then
    d.map (fun p => if p.1 == k then (p.1, v) else p)
  else d ++ [(k, v)]

/-- `dict(zip(ks, vs))` as built by `csv.DictReader` for one data row:
on duplicate keys the value of the last occurrence wins. -/
def pyDictOfZip (ks vs : List String) : List (String × String) :=
  (ks.zip vs).foldl (fun d kv => pyDictInsert d kv.1 kv.2) []

/-- `d[k]` lookup (with a default, never used on the program's inputs since
the key always comes from the dict's own key set). -/
def pyDictGet (d : List (String × String)) (k : String) : String :=
  match d.find? (fun p => p.1 == k) with
  | some p => p.2
  | none => ""

/-- The value `row[column]` seen by the loop body of `csv_to_dict` for a raw
CSV data row, i.e. lookup in `dict(zip(fieldnames, row))`. -/
def dict_row_get (fieldnames row : List String) (column : String) : String :=
  pyDictGet (pyDictOfZip fieldnames row) column

/-- The dict comprehension `{column: [] for column in reader.fieldnames}`. -/
def dictInit (cols : List String) : List (String × List String) :=
  cols.foldl (fun d c => pyDictInsert d c ([] : List String)) []

/-- `result_dict[column].append(v)`. -/
def dictAppendVal (d : List (String × List String)) (k : String) (v : String) :
    List (String × List String) :=
  d.map (fun p => if p.1 == k then (p.1, p.2 ++ [v]) else p)

/-- Shallow embedding of `csv_to_dict` (src lines 31-40), applied to the
parsed CSV content: `fieldnames` is the header row kept verbatim by
`csv.DictReader` (duplicates included), `rows` are the raw data rows. -/
def csv_to_dict (fieldnames : List String) (rows : List (List String)) :
    List (String × List String) :=
  rows.foldl
    (fun res row =>
      fieldnames.foldl
        (fun res column => dictAppendVal res column (dict_row_get fieldnames row column))
        res)
    (dictInit fieldnames)

/-! ## Closed form of `csv_to_dict` -/

/-- The key sequence of a Python dict built by inserting `cols` in order:
first occurrences, in order. -/
def pyKeys (cols : List String) : List String :=
  cols.foldl (fun acc c => if acc.any (fun x => x == c) then acc else acc ++ [c]) []

/-- Concatenation of a per-row block over all rows, in row order. -/
def rowsConcat (f : List String → List String) : List (List String) → List String
  | [] => []
  | r :: rs => f r ++ rowsConcat f rs

lemma map_congr_fun {α β : Type} (l : List α) (f g : α → β) (h : ∀ a, f a = g a) :
    l.map f = l.map g := by
  have : f = g := funext h
  rw [this]

lemma any_map_fst (ks : List String) (c : String) :
    ((ks.map fun k => (k, ([] : List String))).any fun p => p.1 == c)
      = ks.any (fun x => x == c) := by
  induction ks with
  | nil => rfl
  | cons a ks ih => simp [List.any_cons, ih]

lemma pyDictInsert_nil_vals (ks : List String) (c : String) :
    pyDictInsert (ks.map fun k => (k, ([] : List String))) c []
      = (if ks.any (fun x => x == c) then ks else ks ++ [c]).map
          (fun k => (k, ([] : List String))) := by
  unfold pyDictInsert
  rw [any_map_fst]
  by_cases h : ks.any (fun x => x == c) = true
  · rw [if_pos h, if_pos h, List.map_map]
    apply map_congr_fun
    intro a
    by_cases ha : a = c <;> simp [ha]
  · rw [if_neg h, if_neg h, List.map_append]
    rfl

lemma dictInit_foldl (cols : List String) :
    ∀ ks : List String,
      cols.foldl (fun d c => pyDictInsert d c ([] : List String))
          (ks.map fun k => (k, ([] : List String)))
        = (cols.foldl (fun acc c => if acc.any (fun x => x == c) then acc else acc ++ [c]) ks).map
            (fun k => (k, ([] : List String))) := by
  induction cols with
  | nil => intro ks; rfl
  | cons a cols ih =>
    intro ks
    simp only [List.foldl_cons]
    rw [pyDictInsert_nil_vals]
    by_cases h : ks.any (fun x => x == a) = true
    · rw [if_pos h, ih]
    · rw [if_neg h, ih]

lemma dictInit_eq (cols : List String) :
    dictInit cols = (pyKeys cols).map (fun k => (k, ([] : List String))) := by
  have := dictInit_foldl cols []
  simpa [dictInit, pyKeys] using this

lemma dictAppendVal_map (KS : List String) (h : String → List String)
    (k : String) (v : String) :
    dictAppendVal (KS.map fun c => (c, h c)) k v
      = KS.map (fun c => (c, if c == k then h c ++ [v] else h c)) := by
  unfold dictAppendVal
  rw [List.map_map]
  apply map_congr_fun
  intro a
  by_cases ha : a = k <;> simp [ha]

lemma inner_fold_eq (val : String → String) (l : List String) :
    ∀ (KS : List String) (h : String → List String),
      l.foldl (fun res column => dictAppendVal res column (val column))
          (KS.map fun c => (c, h c))
        = KS.map (fun c => (c, h c ++ List.replicate (l.count c) (val c))) := by
  induction l with
  | nil =>
    intro KS h
    simp
  | cons a l ih =>
    intro KS h
    simp only [List.foldl_cons]
    rw [dictAppendVal_map]
    rw [ih KS (fun c => if c == a then h c ++ [val a] else h c)]
    apply map_congr_fun
    intro c
    by_cases hc : c = a
    · subst hc
      simp [List.count_cons, List.replicate_succ]
    · have hc' : (c == a) = false := by simpa using hc
      have hc'' : (a == c) = false := by
        simp only [beq_eq_false_iff_ne, ne_eq]
        exact fun e => hc e.symm
      simp [List.count_cons, hc', hc'']

lemma outer_fold_eq (fieldnames : List String) (rows : List (List String)) :
    ∀ (KS : List String) (h : String → List String),
      rows.foldl
          (fun res row =>
            fieldnames.foldl
              (fun res column => dictAppendVal res column (dict_row_get fieldnames row column))
              res)
          (KS.map fun c => (c, h c))
        = KS.map (fun c =>
            (c, h c ++ rowsConcat
                  (fun row => List.replicate (fieldnames.count c) (dict_row_get fieldnames row c))
                  rows)) := by
  induction rows with
  | nil =>
    intro KS h
    simp [rowsConcat]
  | cons r rows ih =>
    intro KS h
    simp only [List.foldl_cons]
    rw [inner_fold_eq (dict_row_get fieldnames r) fieldnames KS h]
    rw [ih KS (fun c => h c ++ List.replicate (fieldnames.count c) (dict_row_get fieldnames r c))]
    apply map_congr_fun
    intro c
    simp [rowsConcat, List.append_assoc]

/-- Closed form: `csv_to_dict` returns one entry per distinct header name, in
first-occurrence order; the value for name `c` collects, row by row, one copy
of the row's value per occurrence of `c` in the header. -/
theorem csv_to_dict_eq (fieldnames : List String) (rows : List (List String)) :
    csv_to_dict fieldnames rows
      = (pyKeys fieldnames).map (fun c =>
          (c, rowsConcat
                (fun row => List.replicate (fieldnames.count c) (dict_row_get fieldnames row c))
                rows)) := by
  unfold csv_to_dict
  rw [dictInit_eq]
  rw [outer_fold_eq fieldnames rows (pyKeys fieldnames) (fun _ => [])]
  apply map_congr_fun
  intro c
  simp

/-! ## Structural facts about `pyKeys` -/

lemma pyKeys_foldl_decomp (cols : List String) :
    ∀ ks : List String,
      ∃ t, cols.foldl (fun acc c => if acc.any (fun x => x == c) then acc else acc ++ [c]) ks
            = ks ++ t ∧ t.Sublist cols := by
  induction cols with
  | nil => intro ks; exact ⟨[], by simp⟩
  | cons a cols ih =>
    intro ks
    simp only [List.foldl_cons]
    by_cases h : ks.any (fun x => x == a) = true
    · rw [if_pos h]
      obtain ⟨t, ht, hsub⟩ := ih ks
      exact ⟨t, ht, hsub.trans (List.sublist_cons_self a cols)⟩
    · rw [if_neg h]
      obtain ⟨t, ht, hsub⟩ := ih (ks ++ [a])
      exact ⟨a :: t, by rw [ht, List.append_assoc]; rfl, hsub.cons₂ a⟩

lemma pyKeys_sublist (cols : List String) : (pyKeys cols).Sublist cols := by
  obtain ⟨t, ht, hsub⟩ := pyKeys_foldl_decomp cols []
  unfold pyKeys
  rw [ht]
  simpa using hsub

lemma any_beq_iff_mem (ks : List String) (c : String) :
    ks.any (fun x => x == c) = true ↔ c ∈ ks := by
  rw [List.any_eq_true]
  constructor
  · rintro ⟨x, hx, hbeq⟩
    rw [beq_iff_eq] at hbeq
    subst hbeq
    exact hx
  · intro h
    exact ⟨c, h, beq_self_eq_true c⟩

lemma pyKeys_foldl_nodup (cols : List String) :
    ∀ ks : List String, ks.Nodup →
      (cols.foldl (fun acc c => if acc.any (fun x => x == c) then acc else acc ++ [c]) ks).Nodup := by
  induction cols with
  | nil => intro ks h; exact h
  | cons a cols ih =>
    intro ks h
    simp only [List.foldl_cons]
    by_cases hc : ks.any (fun x => x == a) = true
    · rw [if_pos hc]; exact ih ks h
    · rw [if_neg hc]
      apply ih
      have hmem : a ∉ ks := fun hm => hc ((any_beq_iff_mem ks a).mpr hm)
      have hdisj : List.Disjoint ks [a] := by
        intro x hx hxa
        rw [List.mem_singleton] at hxa
        subst hxa
        exact hmem hx
      exact h.append (List.nodup_singleton a) hdisj

lemma pyKeys_nodup (cols : List String) : (pyKeys cols).Nodup :=
  pyKeys_foldl_nodup cols [] (by simp)

lemma pyKeys_foldl_mem (cols : List String) (x : String) :
    ∀ ks : List String,
      (x ∈ cols.foldl (fun acc c => if acc.any (fun x => x == c) then acc else acc ++ [c]) ks
        ↔ x ∈ ks ∨ x ∈ cols) := by
  induction cols with
  | nil => intro ks; simp
  | cons a cols ih =>
    intro ks
    simp only [List.foldl_cons]
    by_cases hc : ks.any (fun x => x == a) = true
    · rw [if_pos hc, ih ks]
      have ha : a ∈ ks := (any_beq_iff_mem ks a).mp hc
      constructor
      · rintro (h | h)
        · exact Or.inl h
        · exact Or.inr (List.mem_cons_of_mem a h)
      · rintro (h | h)
        · exact Or.inl h
        · rcases List.mem_cons.mp h with rfl | h
          · exact Or.inl ha
          · exact Or.inr h
    · rw [if_neg hc, ih (ks ++ [a])]
      simp [List.mem_append, List.mem_cons, or_assoc]

lemma mem_pyKeys (cols : List String) (x : String) : x ∈ pyKeys cols ↔ x ∈ cols := by
  unfold pyKeys
  rw [pyKeys_foldl_mem cols x []]
  simp

lemma pyKeys_of_nodup_aux (cols : List String) :
    ∀ ks : List String, (ks ++ cols).Nodup →
      cols.foldl (fun acc c => if acc.any (fun x => x == c) then acc else acc ++ [c]) ks
        = ks ++ cols := by
  induction cols with
  | nil => intro ks _; simp
  | cons a cols ih =>
    intro ks h
    simp only [List.foldl_cons]
    have ha : a ∉ ks := by
      rcases List.nodup_append.mp h with ⟨_, _, hdisj⟩
      exact fun hm => hdisj hm (List.mem_cons_self a cols)
    have hc : ks.any (fun x => x == a) = false := by
      rw [Bool.eq_false_iff]
      exact fun ht => ha ((any_beq_iff_mem ks a).mp ht)
    rw [hc]
    simp only [Bool.false_eq_true, if_false]
    rw [List.append_cons ks a cols] at h ⊢
    exact ih (ks ++ [a]) h

lemma pyKeys_of_nodup (cols : List String) (h : cols.Nodup) : pyKeys cols = cols := by
  unfold pyKeys
  rw [pyKeys_of_nodup_aux cols [] (by simpa using h)]
  simp

/-- Number of distinct header names is strictly below the header length when
some name repeats. -/
lemma pyKeys_length_lt (cols : List String) (name : String)
    (h2 : 2 ≤ cols.count name) : (pyKeys cols).length < cols.length := by
  have hsub := pyKeys_sublist cols
  rcases Nat.lt_or_ge (pyKeys cols).length cols.length with h | h
  · exact h
  · exfalso
    have hlen : (pyKeys cols).length = cols.length :=
      Nat.le_antisymm hsub.length_le h
    have heq : pyKeys cols = cols := hsub.eq_of_length hlen
    have hc1 : (pyKeys cols).count name ≤ 1 :=
      List.nodup_iff_count_le_one.mp (pyKeys_nodup cols) name
    rw [heq] at hc1
    omega

lemma rowsConcat_length_replicate (k : Nat) (g : List String → String)
    (rows : List (List String)) :
    (rowsConcat (fun r => List.replicate k (g r)) rows).length = k * rows.length := by
  induction rows with
  | nil => simp [rowsConcat]
  | cons r rows ih =>
    simp [rowsConcat, ih, Nat.mul_succ]
    ring

lemma rowsConcat_singleton_length (g : List String → String)
    (rows : List (List String)) :
    (rowsConcat (fun r => [g r]) rows).length = rows.length := by
  induction rows with
  | nil => rfl
  | cons r rows ih => simp [rowsConcat, ih]

/-! ## Backup naming: `lookup_name.split('.')[0]` and `strftime("%Y%m%d%H%M%S")` -/

/-- Python `str.split(sep)` on a character list (`sep` a single character):
splits at every occurrence of `sep`, keeping empty pieces. -/
def py_split (sep : Char) : List Char → List (List Char)
  | [] => [[]]
  | c :: rest =>
    match py_split sep rest with
    | [] => [[]]
    | cur :: rs => if c = sep then [] :: cur :: rs else (c :: cur) :: rs

/-- `lookup_name.split('.')[0]`: the piece before the first `'.'`. -/
def py_split_dot_head (s : String) : String :=
  ⟨(py_split '.' s.toList).headD []⟩

/-- Two-digit zero padding, the behaviour of `%m %d %H %M %S`. -/
def pad2 (n : Nat) : String :=
  if n < 10 then "0" ++ toString n else toString n

/-- Python timestamp value (the fields of `datetime.now()` that
`"%Y%m%d%H%M%S"` reads). -/
structure PyDateTime where
  year : Nat
  month : Nat
  day : Nat
  hour : Nat
  minute : Nat
  second : Nat
deriving DecidableEq

/-- `datetime.strftime("%Y%m%d%H%M%S")`. -/
def strftime_YmdHMS (t : PyDateTime) : String :=
  toString t.year ++ pad2 t.month ++ pad2 t.day ++ pad2 t.hour ++
    pad2 t.minute ++ pad2 t.second

/-- The backup identifier built at src line 98:
`f"{lookup_name.split('.')[0]}_backup_{timestamp}.csv"`. -/
def backup_lookup_name (lookup_name : String) (now : PyDateTime) : String :=
  py_split_dot_head lookup_name ++ "_backup_" ++ strftime_YmdHMS now ++ ".csv"

lemma py_split_ne_nil (sep : Char) (l : List Char) : py_split sep l ≠ [] := by
  cases l with
  | nil => simp [py_split]
  | cons c rest =>
    simp only [py_split]
    cases h : py_split sep rest with
    | nil => simp
    | cons cur rs =>
      by_cases hc : c = sep <;> simp [hc]

lemma py_split_head_takeWhile (sep : Char) (l : List Char) :
    (py_split sep l).headD [] = l.takeWhile (fun c => c ≠ sep) := by
  induction l with
  | nil => rfl
  | cons c rest ih =>
    simp only [py_split]
    cases h : py_split sep rest with
    | nil => exact absurd h (py_split_ne_nil sep rest)
    | cons cur rs =>
      rw [h] at ih
      simp only [List.headD_cons] at ih
      dsimp only
      by_cases hc : c = sep
      · subst hc
        rw [if_pos rfl]
        simp only [List.headD_cons]
        rw [List.takeWhile_cons_of_neg (by simp)]
      · rw [if_neg hc]
        simp only [List.headD_cons]
        rw [List.takeWhile_cons_of_pos (by simp [hc]), ih]

/-! ## The Search Gateway trace model

The remote service is an oracle `Env` mapping each SPL string to either
`none` (the SDK raises `AuthenticationError`) or `some entries` (the decoded
JSON result stream, in which only some entries are result rows).
Running a piece of the program yields a `SearchOutcome`: the queries it
submitted (in order), the lines it printed (in order), and either a normal
value or an abnormal termination. -/

/-- A decoded result row: field/value pairs. -/
abbrev SplunkRow := List (String × String)

/-- One entry of the decoded result stream: a result row (a dict in Python)
or some other entry (e.g. a diagnostic message object). -/
inductive Entry where
  | dict (r : SplunkRow)
  | nondict
deriving DecidableEq

/-- `isinstance(result, dict)` as a partial projection. -/
def entryRow : Entry → Option SplunkRow
  | .dict r => some r
  | .nondict => none

/-- The remote service oracle. -/
abbrev Env := String → Option (List Entry)

/-- Abnormal termination: `exit(n)` or an uncaught exception (the I/O error
from `open`). -/
inductive ProgExit where
  | exitCode (n : Nat)
  | ioError
deriving DecidableEq

/-- The observable outcome of running a program fragment: attempted queries,
printed lines, and the result. -/
structure SearchOutcome (α : Type) where
  queries : List String
  prints : List String
  result : Except ProgExit α

def SearchOutcome.ret {α : Type} (a : α) : SearchOutcome α :=
  ⟨[], [], .ok a⟩

def SearchOutcome.bind {α β : Type} (x : SearchOutcome α)
    (f : α → SearchOutcome β) : SearchOutcome β :=
  match x.result with
  | .error e => ⟨x.queries, x.prints, .error e⟩
  | .ok a =>
    let y := f a
    ⟨x.queries ++ y.queries, x.prints ++ y.prints, y.result⟩

/-- `print(s)`. -/
def emit (s : String) : SearchOutcome Unit :=
  ⟨[], [s], .ok ()⟩

def exec_print (q : String) : String :=
  "Executing search query: " ++ q.take 50 ++ "..."

def authDiagnostic : String :=
  "[ERROR] Authentication failed! Please check your .env file and ensure that the SPLUNK_HOST, SPLUNK_PORT, and SPLUNK_TOKEN are correct."

def msg_success (n : Nat) : String :=
  "Search query executed successfully, " ++ toString n ++ " result(s) found."

def msg_checking (name : String) : String :=
  "Checking if lookup \x27" ++ name ++ "\x27 contains data..."

def msg_nodata (name : String) : String :=
  "No data found in \x27" ++ name ++ "\x27, no backup created."

def msg_backup_created (name bname : String) : String :=
  "Backup created for \x27" ++ name ++ "\x27 as \x27" ++ bname ++ "\x27"

def msg_generating (path : String) : String :=
  "Generating lookup from CSV data: " ++ path

def msg_reading (path : String) : String :=
  "Reading CSV file: " ++ path

def msg_read_ok (n : Nat) : String :=
  "CSV file read successfully: " ++ toString n ++ " columns found."

def msg_created (name path : String) : String :=
  "Lookup \x27" ++ name ++ "\x27 created successfully from CSV \x27" ++ path ++ "\x27."

def msg_contains (name rc : String) : String :=
  "Lookup \x27" ++ name ++ "\x27 contains " ++ rc ++ " rows."

/-- Shallow embedding of `oneshot_search` (src lines 43-74): print the query
prefix, attempt the query; on `AuthenticationError` print the diagnostic and
`exit(1)`; otherwise keep only the entries that are dicts and report their
number. -/
def oneshot_search (env : Env) (spl_query : String) : SearchOutcome (List SplunkRow) :=
  match env spl_query with
  | none =>
    ⟨[spl_query], [exec_print spl_query, authDiagnostic], .error (.exitCode 1)⟩
  | some entries =>
    let search_results := entries.filterMap entryRow
    ⟨[spl_query],
     [exec_print spl_query, msg_success search_results.length],
     .ok search_results⟩

/-! ## `backup_lookup_if_exists` (src lines 77-108) -/

/-- The existence check `f"| inputlookup {lookup_name} | head 1"`. -/
def backup_check_query (lookup_name : String) : String :=
  "| inputlookup " ++ lookup_name ++ " | head 1"

/-- The copy `f"| inputlookup {lookup_name} | outputlookup {backup_lookup_name}"`. -/
def backup_write_query (lookup_name : String) (now : PyDateTime) : String :=
  "| inputlookup " ++ lookup_name ++ " | outputlookup "
    ++ backup_lookup_name lookup_name now

/-- Shallow embedding of `backup_lookup_if_exists`. `now` stands for the
`datetime.now()` reading taken when the backup name is built. -/
def backup_lookup_if_exists (env : Env) (now : PyDateTime)
    (lookup_name : String) : SearchOutcome Unit :=
  SearchOutcome.bind (emit (msg_checking lookup_name))
    (fun _ =>
      SearchOutcome.bind (oneshot_search env (backup_check_query lookup_name))
        (fun results =>
          if results.isEmpty then
            emit (msg_nodata lookup_name)
          else
            SearchOutcome.bind
              (oneshot_search env (backup_write_query lookup_name now))
              (fun _ =>
                emit (msg_backup_created lookup_name
                  (backup_lookup_name lookup_name now)))))

/-! ## `generate_lookup` (src lines 111-161) -/

/-- `SPL_TEMPLATE.format(field=key, data=...)`, whitespace exactly as in the
triple-quoted source literal. -/
def SPL_TEMPLATE (field data : String) : String :=
  "\n    | makeresults\n    | eval \"" ++ field ++ "\"=\"" ++ data
    ++ "\"\n    | makemv delim=\",\" \"" ++ field
    ++ "\"\n    | mvexpand \"" ++ field ++ "\"\n    "

/-- The loop `for index, (key, value) in enumerate(datas.items())` building
`spl_parts`. -/
def build_spl_parts : Nat → List (String × List String) → List String
  | _, [] => []
  | index, (key, value) :: rest =>
    let spl_query := SPL_TEMPLATE key (String.intercalate "," value)
    (if index > 0 then "| appendcols [" ++ spl_query ++ "]" else spl_query)
      :: build_spl_parts (index + 1) rest

/-- `"\n".join(spl_parts)` followed by
`SPL += f"| fields - _time | outputlookup {lookup_name}"`. -/
def build_SPL (datas : List (String × List String)) (lookup_name : String) : String :=
  String.intercalate "\n" (build_spl_parts 0 datas)
    ++ "| fields - _time | outputlookup " ++ lookup_name

/-- `f"| inputlookup {lookup_name} | stats count"`. -/
def verify_count_query (lookup_name : String) : String :=
  "| inputlookup " ++ lookup_name ++ " | stats count"

/-- A CSV file's parsed content: the header row and the data rows. `none`
stands for a file that cannot be opened. -/
abbrev CSVFile := List String × List (List String)

/-- The `csv_to_dict` call as it appears in the run: the prints around the
parse, with an unreadable file raising an (uncaught) I/O error. -/
def csv_to_dict_run (csv_file_path : String) (file : Option CSVFile) :
    SearchOutcome (List (String × List String)) :=
  SearchOutcome.bind (emit (msg_reading csv_file_path))
    (fun _ =>
      match file with
      | none => ⟨[], [], .error .ioError⟩
      | some (fieldnames, rows) =>
        let result := csv_to_dict fieldnames rows
        SearchOutcome.bind (emit (msg_read_ok result.length))
          (fun _ => SearchOutcome.ret result))

/-- Shallow embedding of `generate_lookup`: backup check (and conditional
backup write), CSV load, generation query, verification query, in the order
of the source. -/
def generate_lookup (env : Env) (now : PyDateTime) (csv_file_path : String)
    (file : Option CSVFile) (lookup_name : String) : SearchOutcome Unit :=
  SearchOutcome.bind (backup_lookup_if_exists env now lookup_name)
    (fun _ =>
      SearchOutcome.bind (emit (msg_generating csv_file_path))
        (fun _ =>
          SearchOutcome.bind (csv_to_dict_run csv_file_path file)
            (fun datas =>
              let SPL := build_SPL datas lookup_name
              SearchOutcome.bind (oneshot_search env SPL)
                (fun _ =>
                  SearchOutcome.bind
                    (emit (msg_created lookup_name csv_file_path))
                    (fun _ =>
                      SearchOutcome.bind
                        (oneshot_search env (verify_count_query lookup_name))
                        (fun result =>
                          if result.isEmpty then SearchOutcome.ret ()
                          else
                            let row_count :=
                              match (result.headD []).find?
                                  (fun p => p.1 == "count") with
                              | some p => p.2
                              | none => "0"
                            emit (msg_contains lookup_name row_count)))))))

/-- The per-run full query sequence: existence check, the backup write when
the check produced at least one row, generation query, verification query.
When the CSV file is unreadable the generation query is formed from a dummy
empty table (the run never reaches it). -/
def expected_queries (env : Env) (now : PyDateTime) (file : Option CSVFile)
    (lookup_name : String) : List String :=
  backup_check_query lookup_name ::
    (match env (backup_check_query lookup_name) with
     | none => []
     | some entries =>
       if (entries.filterMap entryRow).isEmpty then []
       else [backup_write_query lookup_name now])
    ++ (let f := file.getD ([], [])
        [build_SPL (csv_to_dict f.1 f.2) lookup_name,
         verify_count_query lookup_name])

/-! ## Shape lemmas for the run branches -/

lemma backup_shape_authfail (env : Env) (now : PyDateTime) (name : String)
    (h : env (backup_check_query name) = none) :
    backup_lookup_if_exists env now name
      = ⟨[backup_check_query name],
         [msg_checking name, exec_print (backup_check_query name), authDiagnostic],
         .error (.exitCode 1)⟩ := by
  simp [backup_lookup_if_exists, oneshot_search, SearchOutcome.bind, emit, h]

lemma backup_shape_empty (env : Env) (now : PyDateTime) (name : String)
    (entries : List Entry) (h : env (backup_check_query name) = some entries)
    (he : entries.filterMap entryRow = []) :
    backup_lookup_if_exists env now name
      = ⟨[backup_check_query name],
         [msg_checking name, exec_print (backup_check_query name), msg_success 0,
          msg_nodata name],
         .ok ()⟩ := by
  simp [backup_lookup_if_exists, oneshot_search, SearchOutcome.bind, emit, h, he]

lemma backup_shape_write_authfail (env : Env) (now : PyDateTime) (name : String)
    (entries : List Entry) (h : env (backup_check_query name) = some entries)
    (he : entries.filterMap entryRow ≠ [])
    (hw : env (backup_write_query name now) = none) :
    backup_lookup_if_exists env now name
      = ⟨[backup_check_query name, backup_write_query name now],
         [msg_checking name, exec_print (backup_check_query name),
          msg_success (entries.filterMap entryRow).length,
          exec_print (backup_write_query name now), authDiagnostic],
         .error (.exitCode 1)⟩ := by
  simp [backup_lookup_if_exists, oneshot_search, SearchOutcome.bind, emit, h, he, hw]

lemma backup_shape_write_ok (env : Env) (now : PyDateTime) (name : String)
    (entries wentries : List Entry)
    (h : env (backup_check_query name) = some entries)
    (he : entries.filterMap entryRow ≠ [])
    (hw : env (backup_write_query name now) = some wentries) :
    backup_lookup_if_exists env now name
      = ⟨[backup_check_query name, backup_write_query name now],
         [msg_checking name, exec_print (backup_check_query name),
          msg_success (entries.filterMap entryRow).length,
          exec_print (backup_write_query name now),
          msg_success (wentries.filterMap entryRow).length,
          msg_backup_created name (backup_lookup_name name now)],
         .ok ()⟩ := by
  simp [backup_lookup_if_exists, oneshot_search, SearchOutcome.bind, emit, h, he, hw]

/-- `result[0].get('count', 0)` as printed. -/
def row_count_of (vres : List SplunkRow) : String :=
  match (vres.headD []).find? (fun p => p.1 == "count") with
  | some p => p.2
  | none => "0"

lemma generate_shape_iofail (env : Env) (now : PyDateTime) (path : String)
    (name : String) (Qb Pb : List String)
    (hb : backup_lookup_if_exists env now name = ⟨Qb, Pb, .ok ()⟩) :
    generate_lookup env now path none name
      = ⟨Qb, Pb ++ [msg_generating path, msg_reading path], .error .ioError⟩ := by
  simp [generate_lookup, csv_to_dict_run, SearchOutcome.bind, emit, hb]

lemma generate_shape_gen_authfail (env : Env) (now : PyDateTime) (path : String)
    (fns : List String) (rows : List (List String)) (name : String)
    (Qb Pb : List String)
    (hb : backup_lookup_if_exists env now name = ⟨Qb, Pb, .ok ()⟩)
    (hgen : env (build_SPL (csv_to_dict fns rows) name) = none) :
    generate_lookup env now path (some (fns, rows)) name
      = ⟨Qb ++ [build_SPL (csv_to_dict fns rows) name],
         Pb ++ [msg_generating path, msg_reading path,
                msg_read_ok (csv_to_dict fns rows).length,
                exec_print (build_SPL (csv_to_dict fns rows) name), authDiagnostic],
         .error (.exitCode 1)⟩ := by
  simp [generate_lookup, csv_to_dict_run, oneshot_search, SearchOutcome.bind,
    SearchOutcome.ret, emit, hb, hgen]

lemma generate_shape_verify_authfail (env : Env) (now : PyDateTime) (path : String)
    (fns : List String) (rows : List (List String)) (name : String)
    (Qb Pb : List String) (ges : List Entry)
    (hb : backup_lookup_if_exists env now name = ⟨Qb, Pb, .ok ()⟩)
    (hgen : env (build_SPL (csv_to_dict fns rows) name) = some ges)
    (hver : env (verify_count_query name) = none) :
    generate_lookup env now path (some (fns, rows)) name
      = ⟨Qb ++ [build_SPL (csv_to_dict fns rows) name, verify_count_query name],
         Pb ++ [msg_generating path, msg_reading path,
                msg_read_ok (csv_to_dict fns rows).length,
                exec_print (build_SPL (csv_to_dict fns rows) name),
                msg_success (ges.filterMap entryRow).length,
                msg_created name path,
                exec_print (verify_count_query name), authDiagnostic],
         .error (.exitCode 1)⟩ := by
  simp [generate_lookup, csv_to_dict_run, oneshot_search, SearchOutcome.bind,
    SearchOutcome.ret, emit, hb, hgen, hver]

lemma generate_shape_ok (env : Env) (now : PyDateTime) (path : String)
    (fns : List String) (rows : List (List String)) (name : String)
    (Qb Pb : List String) (ges ves : List Entry)
    (hb : backup_lookup_if_exists env now name = ⟨Qb, Pb, .ok ()⟩)
    (hgen : env (build_SPL (csv_to_dict fns rows) name) = some ges)
    (hver : env (verify_count_query name) = some ves) :
    generate_lookup env now path (some (fns, rows)) name
      = ⟨Qb ++ [build_SPL (csv_to_dict fns rows) name, verify_count_query name],
         Pb ++ ([msg_generating path, msg_reading path,
                msg_read_ok (csv_to_dict fns rows).length,
                exec_print (build_SPL (csv_to_dict fns rows) name),
                msg_success (ges.filterMap entryRow).length,
                msg_created name path,
                exec_print (verify_count_query name),
                msg_success (ves.filterMap entryRow).length]
           ++ (if (ves.filterMap entryRow).isEmpty then []
               else [msg_contains name (row_count_of (ves.filterMap entryRow))])),
         .ok ()⟩ := by
  by_cases hv : (ves.filterMap entryRow).isEmpty = true
  · simp [generate_lookup, csv_to_dict_run, oneshot_search, SearchOutcome.bind,
      SearchOutcome.ret, emit, hb, hgen, hver, hv]
  · simp [generate_lookup, csv_to_dict_run, oneshot_search, SearchOutcome.bind,
      SearchOutcome.ret, emit, row_count_of, hb, hgen, hver, hv]

lemma generate_shape_backupfail (env : Env) (now : PyDateTime) (path : String)
    (file : Option CSVFile) (name : String) (Qb Pb : List String) (e : ProgExit)
    (hb : backup_lookup_if_exists env now name = ⟨Qb, Pb, .error e⟩) :
    generate_lookup env now path file name = ⟨Qb, Pb, .error e⟩ := by
  simp [generate_lookup, SearchOutcome.bind, hb]

/-! ## String helpers -/

lemma string_data_append (a b : String) : (a ++ b).data = a.data ++ b.data := rfl

lemma string_length_data_append (a b : String) :
    (a ++ b).data.length = a.data.length + b.data.length := by
  rw [string_data_append, List.length_append]

/-- The existence-check query and the backup write query are distinct SPL
strings (their suffixes after the shared prefix have different lengths). -/
lemma backup_check_ne_write (name : String) (now : PyDateTime) :
    backup_check_query name ≠ backup_write_query name now := by
  intro h
  have hlen := congrArg (fun s : String => s.data.length) h
  simp only [backup_check_query, backup_write_query, backup_lookup_name,
    string_length_data_append, List.length_cons, List.length_nil] at hlen
  omega

/-! ## Claims -/

/-- C1: for the lookup identifier "attacks_lookup.csv" and a clock reading of
2024-01-02T03:04:05, `backup_lookup_if_exists` derives the backup identifier
"attacks_lookup_backup_20240102030405.csv"; in general, for every identifier
containing a ".", the backup name is the portion before the first "."
followed by "_backup_", the timestamp formatted %Y%m%d%H%M%S, and the
suffix ".csv". -/
theorem C1_backup_naming :
    backup_lookup_name "attacks_lookup.csv" ⟨2024, 1, 2, 3, 4, 5⟩
        = "attacks_lookup_backup_20240102030405.csv"
    ∧ ∀ (name : String) (now : PyDateTime), '.' ∈ name.toList →
        backup_lookup_name name now
          = String.mk (name.toList.takeWhile (fun c => c ≠ '.')) ++ "_backup_"
            ++ strftime_YmdHMS now ++ ".csv" := by
  constructor
  · decide
  · intro name now _
    unfold backup_lookup_name py_split_dot_head
    rw [py_split_head_takeWhile]

theorem C1_backup_naming_witness :
    ('.' ∈ "evil.data.tsv".toList)
    ∧ backup_lookup_name "evil.data.tsv" ⟨2025, 12, 31, 23, 59, 8⟩
        = "evil_backup_20251231235908.csv" := by
  refine ⟨by decide, ?_⟩
  rw [C1_backup_naming.2 "evil.data.tsv" ⟨2025, 12, 31, 23, 59, 8⟩ (by decide)]
  decide

/-- C9: the backup name always ends in ".csv" and discards the identifier's
original extension: an identifier with no "." keeps its full name as the
stem, and "data.tsv" yields "data_backup_<timestamp>.csv", not a name
carrying ".tsv". -/
theorem C9_backup_extension :
    (∀ (name : String) (now : PyDateTime), '.' ∉ name.toList →
        backup_lookup_name name now
          = name ++ "_backup_" ++ strftime_YmdHMS now ++ ".csv")
    ∧ (∀ now : PyDateTime,
        backup_lookup_name "data.tsv" now
          = "data" ++ "_backup_" ++ strftime_YmdHMS now ++ ".csv")
    ∧ ∀ (name : String) (now : PyDateTime),
        ∃ stem : String, backup_lookup_name name now = stem ++ ".csv" := by
  refine ⟨?_, ?_, ?_⟩
  · intro name now h
    unfold backup_lookup_name py_split_dot_head
    rw [py_split_head_takeWhile]
    have htw : name.toList.takeWhile (fun c => c ≠ '.') = name.toList := by
      apply List.takeWhile_eq_self_iff.mpr
      intro c hc
      simp only [ne_eq, decide_eq_true_eq]
      exact fun e => h (e ▸ hc)
    rw [htw]
    cases name
    rfl
  · intro now
    have hstem : py_split_dot_head "data.tsv" = "data" := by decide
    unfold backup_lookup_name
    rw [hstem]
  · intro name now
    exact ⟨py_split_dot_head name ++ "_backup_" ++ strftime_YmdHMS now, rfl⟩

theorem C9_backup_extension_witness :
    ('.' ∉ "mylookup".toList)
    ∧ backup_lookup_name "mylookup" ⟨2024, 1, 2, 3, 4, 5⟩
        = "mylookup_backup_20240102030405.csv" := by
  refine ⟨by decide, ?_⟩
  rw [C9_backup_extension.1 "mylookup" ⟨2024, 1, 2, 3, 4, 5⟩ (by decide)]
  decide

/-- C3: `backup_lookup_if_exists` submits the outputlookup write query if and
only if the preceding existence-check query returned at least one row; with
zero rows it submits only the check and returns normally. -/
theorem C3_backup_write_iff (env : Env) (now : PyDateTime) (name : String)
    (entries : List Entry)
    (henv : env (backup_check_query name) = some entries) :
    (entries.filterMap entryRow ≠ [] ↔
        backup_write_query name now ∈ (backup_lookup_if_exists env now name).queries)
    ∧ (entries.filterMap entryRow = [] →
        (backup_lookup_if_exists env now name).queries = [backup_check_query name]
        ∧ (backup_lookup_if_exists env now name).result = .ok ())
    ∧ (entries.filterMap entryRow ≠ [] →
        (backup_lookup_if_exists env now name).queries
          = [backup_check_query name, backup_write_query name now]) := by
  by_cases he : entries.filterMap entryRow = []
  · rw [backup_shape_empty env now name entries henv he]
    refine ⟨?_, fun _ => ⟨rfl, rfl⟩, fun hne => absurd he hne⟩
    constructor
    · intro hne
      exact absurd he hne
    · intro hmem
      rcases List.mem_singleton.mp hmem with h
      exact absurd h.symm (backup_check_ne_write name now)
  · have hq : (backup_lookup_if_exists env now name).queries
        = [backup_check_query name, backup_write_query name now] := by
      cases hw : env (backup_write_query name now) with
      | none =>
        rw [backup_shape_write_authfail env now name entries henv he hw]
      | some wentries =>
        rw [backup_shape_write_ok env now name entries wentries henv he hw]
    refine ⟨?_, fun h => absurd h he, fun _ => hq⟩
    constructor
    · intro _
      rw [hq]
      exact List.mem_cons_of_mem _ (List.mem_singleton.mpr rfl)
    · intro _
      exact he

def envC3 : Env := fun q =>
  if q = backup_check_query "attacks_lookup.csv" then
    some [Entry.dict [("a", "1")]]
  else some []

theorem C3_backup_write_iff_witness :
    (backup_lookup_if_exists envC3 ⟨2024, 1, 2, 3, 4, 5⟩ "attacks_lookup.csv").queries
      = [backup_check_query "attacks_lookup.csv",
         backup_write_query "attacks_lookup.csv" ⟨2024, 1, 2, 3, 4, 5⟩] :=
  (C3_backup_write_iff envC3 ⟨2024, 1, 2, 3, 4, 5⟩ "attacks_lookup.csv"
    [Entry.dict [("a", "1")]] (by decide)).2.2 (by decide)

/-- The per-column generation fragment exactly as the spec describes it:
makeresults, eval of the joined values, makemv on the comma delimiter,
mvexpand. -/
def column_fragment (name : String) (values : List String) : String :=
  "\n    | makeresults\n    | eval \"" ++ name ++ "\"=\""
    ++ String.intercalate "," values
    ++ "\"\n    | makemv delim=\",\" \"" ++ name
    ++ "\"\n    | mvexpand \"" ++ name ++ "\"\n    "

lemma build_spl_parts_pos (rest : List (String × List String)) :
    ∀ i : Nat,
      build_spl_parts (i + 1) rest
        = rest.map (fun p => "| appendcols [" ++ column_fragment p.1 p.2 ++ "]") := by
  induction rest with
  | nil => intro i; rfl
  | cons hd tl ih =>
    intro i
    cases hd with
    | mk key value =>
      simp only [build_spl_parts, List.map_cons]
      rw [if_pos (Nat.succ_pos i), ih (i + 1)]
      rfl

/-- C4: for a non-empty column table the generated SPL is the first column's
fragment, then each further column's fragment wrapped in
"| appendcols [...]", joined by newlines, followed by the single trailing
"| fields - _time | outputlookup name". -/
theorem C4_spl_composition (k0 : String) (v0 : List String)
    (rest : List (String × List String)) (lookup_name : String) :
    build_SPL ((k0, v0) :: rest) lookup_name
      = String.intercalate "\n"
          (column_fragment k0 v0
            :: rest.map (fun p => "| appendcols [" ++ column_fragment p.1 p.2 ++ "]"))
        ++ "| fields - _time | outputlookup " ++ lookup_name := by
  unfold build_SPL
  simp only [build_spl_parts]
  rw [if_neg (by omega)]
  rw [build_spl_parts_pos rest 0]
  rfl

lemma map_fst_pair {β : Type} (l : List String) (g : String → β) :
    (l.map (fun c => (c, g c))).map Prod.fst = l := by
  induction l with
  | nil => rfl
  | cons a l ih => simp [ih]

/-- C5: for a rectangular CSV with distinct header names, `csv_to_dict`
returns one entry per header column, in header order, each value being a
list with one string per data row. -/
theorem C5_csv_loader_shape (fieldnames : List String) (rows : List (List String))
    (hnd : fieldnames.Nodup)
    (hrect : ∀ r ∈ rows, r.length = fieldnames.length) :
    (csv_to_dict fieldnames rows).length = fieldnames.length
    ∧ (csv_to_dict fieldnames rows).map Prod.fst = fieldnames
    ∧ ∀ p ∈ csv_to_dict fieldnames rows, p.2.length = rows.length := by
  rw [csv_to_dict_eq, pyKeys_of_nodup _ hnd]
  refine ⟨by simp, map_fst_pair fieldnames _, ?_⟩
  intro p hp
  rw [List.mem_map] at hp
  obtain ⟨c, hc, rfl⟩ := hp
  have h1 : fieldnames.count c = 1 := List.count_eq_one_of_mem hnd hc
  simp only [h1, List.replicate_one]
  exact rowsConcat_singleton_length _ rows

theorem C5_csv_loader_shape_witness :
    (csv_to_dict ["ip", "tag"] [["a", "x"], ["b", "y"]]).length = 2
    ∧ (csv_to_dict ["ip", "tag"] [["a", "x"], ["b", "y"]]).map Prod.fst = ["ip", "tag"]
    ∧ ∀ p ∈ csv_to_dict ["ip", "tag"] [["a", "x"], ["b", "y"]], p.2.length = 2 :=
  C5_csv_loader_shape ["ip", "tag"] [["a", "x"], ["b", "y"]]
    (by decide) (by decide)

/-- C10: with a header name occurring k > 1 times, `csv_to_dict` has a single
entry for that name, its value list has length k*M (one copy of the shared
per-row value per duplicate occurrence), the table has fewer entries than
header columns, and (when data rows exist and some other name occurs once)
the equal-row-count invariant is violated. -/
theorem C10_duplicate_header (fieldnames : List String) (rows : List (List String))
    (name : String) (k : Nat) (hk : fieldnames.count name = k) (h2 : 2 ≤ k)
    (hrect : ∀ r ∈ rows, r.length = fieldnames.length) :
    (csv_to_dict fieldnames rows).countP (fun p => p.1 == name) = 1
    ∧ (∀ p ∈ csv_to_dict fieldnames rows, p.1 = name → p.2.length = k * rows.length)
    ∧ (csv_to_dict fieldnames rows).length < fieldnames.length
    ∧ (1 ≤ rows.length → ∀ other ∈ fieldnames, fieldnames.count other = 1 →
        ∀ p q, p ∈ csv_to_dict fieldnames rows → q ∈ csv_to_dict fieldnames rows →
          p.1 = name → q.1 = other → p.2.length ≠ q.2.length) := by
  have hmem : name ∈ fieldnames := by
    rw [← List.count_pos_iff, hk]
    omega
  have hval : ∀ p ∈ csv_to_dict fieldnames rows, p.1 = name →
      p.2.length = k * rows.length := by
    intro p hp hpn
    rw [csv_to_dict_eq] at hp
    rw [List.mem_map] at hp
    obtain ⟨c, _, rfl⟩ := hp
    simp only at hpn
    subst hpn
    rw [hk]
    exact rowsConcat_length_replicate k _ rows
  refine ⟨?_, hval, ?_, ?_⟩
  · rw [csv_to_dict_eq]
    have : ((pyKeys fieldnames).map (fun c =>
        (c, rowsConcat (fun row =>
          List.replicate (fieldnames.count c) (dict_row_get fieldnames row c)) rows))).countP
          (fun p => p.1 == name)
        = (pyKeys fieldnames).countP (fun c => c == name) := by
      rw [List.countP_map]
      rfl
    rw [this]
    have hmemk : name ∈ pyKeys fieldnames := (mem_pyKeys fieldnames name).mpr hmem
    exact List.count_eq_one_of_mem (pyKeys_nodup fieldnames) hmemk
  · rw [csv_to_dict_eq, List.length_map]
    exact pyKeys_length_lt fieldnames name (by omega)
  · intro hrows other hother hcnt1 p q hp hq hpn hqo
    have hplen := hval p hp hpn
    have hqlen : q.2.length = rows.length := by
      rw [csv_to_dict_eq] at hq
      rw [List.mem_map] at hq
      obtain ⟨c, _, rfl⟩ := hq
      simp only at hqo
      subst hqo
      rw [hcnt1]
      simp only [List.replicate_one]
      exact rowsConcat_singleton_length _ rows
    rw [hplen, hqlen]
    have hkM : 2 * rows.length ≤ k * rows.length :=
      Nat.mul_le_mul_right rows.length h2
    omega

theorem C10_duplicate_header_witness :
    (csv_to_dict ["a", "a", "b"] [["1", "2", "x"]]).countP (fun p => p.1 == "a") = 1
    ∧ (∀ p ∈ csv_to_dict ["a", "a", "b"] [["1", "2", "x"]], p.1 = "a" →
        p.2.length = 2 * 1)
    ∧ (csv_to_dict ["a", "a", "b"] [["1", "2", "x"]]).length < 3
    ∧ (1 ≤ 1 → ∀ other ∈ ["a", "a", "b"], (["a", "a", "b"] : List String).count other = 1 →
        ∀ p q, p ∈ csv_to_dict ["a", "a", "b"] [["1", "2", "x"]] →
          q ∈ csv_to_dict ["a", "a", "b"] [["1", "2", "x"]] →
          p.1 = "a" → q.1 = other → p.2.length ≠ q.2.length) :=
  C10_duplicate_header ["a", "a", "b"] [["1", "2", "x"]] "a" 2
    (by decide) (by decide) (by decide)

lemma filterMap_map_dict_sublist (entries : List Entry) :
    ((entries.filterMap entryRow).map Entry.dict).Sublist entries := by
  induction entries with
  | nil => simp
  | cons e es ih =>
    cases e with
    | dict r =>
      simpa [entryRow] using ih.cons₂ (Entry.dict r)
    | nondict =>
      simpa [entryRow] using ih.cons Entry.nondict

lemma filterMap_filter_isSome (entries : List Entry) :
    (entries.filter (fun e => (entryRow e).isSome)).filterMap entryRow
      = entries.filterMap entryRow := by
  induction entries with
  | nil => rfl
  | cons e es ih =>
    cases e with
    | dict r =>
      simp [entryRow] at ih ⊢
      exact ih
    | nondict =>
      simp [entryRow] at ih ⊢
      exact ih

/-- C7: `oneshot_search` returns exactly the dict entries of the decoded
stream, in order (a sublist of the stream), and dropping the non-dict
entries has no observable effect: the whole outcome equals the outcome on a
stream already restricted to its dict entries. -/
theorem C7_nondict_filtering (env : Env) (q : String) (entries : List Entry)
    (henv : env q = some entries) :
    (oneshot_search env q).result = .ok (entries.filterMap entryRow)
    ∧ ((entries.filterMap entryRow).map Entry.dict).Sublist entries
    ∧ oneshot_search env q
        = oneshot_search
            (fun q' => if q' = q then
              some (entries.filter (fun e => (entryRow e).isSome)) else env q') q := by
  refine ⟨by simp [oneshot_search, henv], filterMap_map_dict_sublist entries, ?_⟩
  simp [oneshot_search, henv, filterMap_filter_isSome]

def envC7 : Env := fun _ =>
  some [Entry.dict [("a", "1")], Entry.nondict, Entry.dict [("a", "2")]]

theorem C7_nondict_filtering_witness :
    (oneshot_search envC7 "| inputlookup x | head 1").result
        = .ok [[("a", "1")], [("a", "2")]]
    ∧ (([[("a", "1")], [("a", "2")]] : List SplunkRow).map Entry.dict).Sublist
        [Entry.dict [("a", "1")], Entry.nondict, Entry.dict [("a", "2")]]
    ∧ oneshot_search envC7 "| inputlookup x | head 1"
        = oneshot_search
            (fun q' => if q' = "| inputlookup x | head 1" then
              some ([Entry.dict [("a", "1")], Entry.nondict,
                Entry.dict [("a", "2")]].filter (fun e => (entryRow e).isSome))
              else envC7 q') "| inputlookup x | head 1" :=
  C7_nondict_filtering envC7 "| inputlookup x | head 1"
    [Entry.dict [("a", "1")], Entry.nondict, Entry.dict [("a", "2")]] rfl

lemma env_some_ne_none {env : Env} {q : String} {es : List Entry}
    (h : env q = some es) (hn : env q = none) : False := by
  rw [h] at hn
  exact Option.noConfusion hn

/-- C2: a query that raises an authentication failure makes the program print
the diagnostic and stop with exit status 1, issuing no further queries; in
particular, when the very first (existence-check) query fails, the backup
write, the generation query and the verification query are never submitted. -/
theorem C2_auth_failure (env : Env) (now : PyDateTime) (path : String)
    (file : Option CSVFile) (name : String) :
    (env (backup_check_query name) = none →
       (generate_lookup env now path file name).queries = [backup_check_query name]
       ∧ (generate_lookup env now path file name).result = .error (.exitCode 1)
       ∧ authDiagnostic ∈ (generate_lookup env now path file name).prints)
    ∧ (∀ q ∈ (generate_lookup env now path file name).queries, env q = none →
        (generate_lookup env now path file name).result = .error (.exitCode 1)
        ∧ authDiagnostic ∈ (generate_lookup env now path file name).prints
        ∧ (generate_lookup env now path file name).queries.getLast? = some q) := by
  cases hchk : env (backup_check_query name) with
  | none =>
    have hshape := generate_shape_backupfail env now path file name _ _ _
      (backup_shape_authfail env now name hchk)
    rw [hshape]
    constructor
    · intro _
      exact ⟨rfl, rfl, by simp⟩
    · intro q hq _
      have hqc : q = backup_check_query name := by simpa using hq
      subst hqc
      exact ⟨rfl, by simp, rfl⟩
  | some ces =>
    refine ⟨fun hcontra => Option.noConfusion hcontra, ?_⟩
    by_cases hemp : ces.filterMap entryRow = []
    · have hb := backup_shape_empty env now name ces hchk hemp
      cases file with
      | none =>
        rw [generate_shape_iofail env now path name _ _ hb]
        intro q hq hn
        have hqc : q = backup_check_query name := by simpa using hq
        subst hqc
        exact (env_some_ne_none hchk hn).elim
      | some f =>
        obtain ⟨fns, rows⟩ := f
        cases hgen : env (build_SPL (csv_to_dict fns rows) name) with
        | none =>
          rw [generate_shape_gen_authfail env now path fns rows name _ _ hb hgen]
          intro q hq hn
          simp only [List.cons_append, List.nil_append, List.mem_cons,
            List.not_mem_nil, or_false] at hq
          rcases hq with rfl | rfl
          · exact (env_some_ne_none hchk hn).elim
          · exact ⟨rfl, by simp, rfl⟩
        | some ges =>
          cases hver : env (verify_count_query name) with
          | none =>
            rw [generate_shape_verify_authfail env now path fns rows name _ _ ges hb hgen hver]
            intro q hq hn
            simp only [List.cons_append, List.nil_append, List.mem_cons,
              List.not_mem_nil, or_false] at hq
            rcases hq with rfl | rfl | rfl
            · exact (env_some_ne_none hchk hn).elim
            · exact (env_some_ne_none hgen hn).elim
            · exact ⟨rfl, by simp, rfl⟩
          | some ves =>
            rw [generate_shape_ok env now path fns rows name _ _ ges ves hb hgen hver]
            intro q hq hn
            simp only [List.cons_append, List.nil_append, List.mem_cons,
              List.not_mem_nil, or_false] at hq
            rcases hq with rfl | rfl | rfl
            · exact (env_some_ne_none hchk hn).elim
            · exact (env_some_ne_none hgen hn).elim
            · exact (env_some_ne_none hver hn).elim
    · cases hw : env (backup_write_query name now) with
      | none =>
        have hb := backup_shape_write_authfail env now name ces hchk hemp hw
        have hshape := generate_shape_backupfail env now path file name _ _ _ hb
        rw [hshape]
        intro q hq hn
        simp only [List.mem_cons, List.not_mem_nil, or_false] at hq
        rcases hq with rfl | rfl
        · exact (env_some_ne_none hchk hn).elim
        · exact ⟨rfl, by simp, rfl⟩
      | some wes =>
        have hb := backup_shape_write_ok env now name ces wes hchk hemp hw
        cases file with
        | none =>
          rw [generate_shape_iofail env now path name _ _ hb]
          intro q hq hn
          simp only [List.mem_cons, List.not_mem_nil, or_false] at hq
          rcases hq with rfl | rfl
          · exact (env_some_ne_none hchk hn).elim
          · exact (env_some_ne_none hw hn).elim
        | some f =>
          obtain ⟨fns, rows⟩ := f
          cases hgen : env (build_SPL (csv_to_dict fns rows) name) with
          | none =>
            rw [generate_shape_gen_authfail env now path fns rows name _ _ hb hgen]
            intro q hq hn
            simp only [List.cons_append, List.nil_append, List.mem_cons,
              List.not_mem_nil, or_false] at hq
            rcases hq with rfl | rfl | rfl
            · exact (env_some_ne_none hchk hn).elim
            · exact (env_some_ne_none hw hn).elim
            · exact ⟨rfl, by simp, rfl⟩
          | some ges =>
            cases hver : env (verify_count_query name) with
            | none =>
              rw [generate_shape_verify_authfail env now path fns rows name _ _ ges hb hgen hver]
              intro q hq hn
              simp only [List.cons_append, List.nil_append, List.mem_cons,
                List.not_mem_nil, or_false] at hq
              rcases hq with rfl | rfl | rfl | rfl
              · exact (env_some_ne_none hchk hn).elim
              · exact (env_some_ne_none hw hn).elim
              · exact (env_some_ne_none hgen hn).elim
              · exact ⟨rfl, by simp, rfl⟩
            | some ves =>
              rw [generate_shape_ok env now path fns rows name _ _ ges ves hb hgen hver]
              intro q hq hn
              simp only [List.cons_append, List.nil_append, List.mem_cons,
                List.not_mem_nil, or_false] at hq
              rcases hq with rfl | rfl | rfl | rfl
              · exact (env_some_ne_none hchk hn).elim
              · exact (env_some_ne_none hw hn).elim
              · exact (env_some_ne_none hgen hn).elim
              · exact (env_some_ne_none hver hn).elim

theorem C2_auth_failure_witness :
    (generate_lookup (fun _ => none) ⟨2024, 1, 2, 3, 4, 5⟩ "cyber_attacks.csv"
        (some (["ip"], [["a"]])) "attacks_lookup.csv").queries
      = [backup_check_query "attacks_lookup.csv"]
    ∧ (generate_lookup (fun _ => none) ⟨2024, 1, 2, 3, 4, 5⟩ "cyber_attacks.csv"
        (some (["ip"], [["a"]])) "attacks_lookup.csv").result = .error (.exitCode 1)
    ∧ authDiagnostic ∈ (generate_lookup (fun _ => none) ⟨2024, 1, 2, 3, 4, 5⟩
        "cyber_attacks.csv" (some (["ip"], [["a"]])) "attacks_lookup.csv").prints :=
  (C2_auth_failure (fun _ => none) ⟨2024, 1, 2, 3, 4, 5⟩ "cyber_attacks.csv"
    (some (["ip"], [["a"]])) "attacks_lookup.csv").1 rfl

/-- C6: the steps of `generate_lookup` run in the fixed order backup check
(and conditional backup write), CSV load, generation query, verification
query: the submitted queries always form a prefix of the full per-run query
sequence, and the run completes normally exactly with the full sequence; a
failure in any step cuts the sequence short (no later query is submitted and
no rollback query of any kind exists). -/
theorem C6_step_order (env : Env) (now : PyDateTime) (path : String)
    (file : Option CSVFile) (name : String) :
    (generate_lookup env now path file name).queries <+:
        expected_queries env now file name
    ∧ ((generate_lookup env now path file name).result = .ok () →
        (generate_lookup env now path file name).queries
          = expected_queries env now file name) := by
  cases hchk : env (backup_check_query name) with
  | none =>
    rw [generate_shape_backupfail env now path file name _ _ _
      (backup_shape_authfail env now name hchk)]
    constructor
    · exact ⟨[build_SPL (csv_to_dict (file.getD ([], [])).1 (file.getD ([], [])).2) name,
        verify_count_query name], by simp [expected_queries, hchk]⟩
    · intro h
      exact Except.noConfusion h
  | some ces =>
    by_cases hemp : ces.filterMap entryRow = []
    · have hie : (ces.filterMap entryRow).isEmpty = true :=
        List.isEmpty_iff.mpr hemp
      have hb := backup_shape_empty env now name ces hchk hemp
      cases file with
      | none =>
        rw [generate_shape_iofail env now path name _ _ hb]
        constructor
        · exact ⟨[build_SPL (csv_to_dict [] []) name, verify_count_query name],
            by simp [expected_queries, hchk, hie]⟩
        · intro h
          exact Except.noConfusion h
      | some f =>
        obtain ⟨fns, rows⟩ := f
        cases hgen : env (build_SPL (csv_to_dict fns rows) name) with
        | none =>
          rw [generate_shape_gen_authfail env now path fns rows name _ _ hb hgen]
          constructor
          · exact ⟨[verify_count_query name], by simp [expected_queries, hchk, hie]⟩
          · intro h
            exact Except.noConfusion h
        | some ges =>
          cases hver : env (verify_count_query name) with
          | none =>
            rw [generate_shape_verify_authfail env now path fns rows name _ _ ges
              hb hgen hver]
            constructor
            · exact ⟨[], by simp [expected_queries, hchk, hie]⟩
            · intro h
              exact Except.noConfusion h
          | some ves =>
            rw [generate_shape_ok env now path fns rows name _ _ ges ves hb hgen hver]
            constructor
            · exact ⟨[], by simp [expected_queries, hchk, hie]⟩
            · intro _
              simp [expected_queries, hchk, hie]
    · have hie : (ces.filterMap entryRow).isEmpty = false := by
        cases h : (ces.filterMap entryRow).isEmpty with
        | false => rfl
        | true => exact absurd (List.isEmpty_iff.mp h) hemp
      cases hw : env (backup_write_query name now) with
      | none =>
        rw [generate_shape_backupfail env now path file name _ _ _
          (backup_shape_write_authfail env now name ces hchk hemp hw)]
        constructor
        · exact ⟨[build_SPL (csv_to_dict (file.getD ([], [])).1 (file.getD ([], [])).2) name,
            verify_count_query name], by simp [expected_queries, hchk, hie]⟩
        · intro h
          exact Except.noConfusion h
      | some wes =>
        have hb := backup_shape_write_ok env now name ces wes hchk hemp hw
        cases file with
        | none =>
          rw [generate_shape_iofail env now path name _ _ hb]
          constructor
          · exact ⟨[build_SPL (csv_to_dict [] []) name, verify_count_query name],
              by simp [expected_queries, hchk, hie]⟩
          · intro h
            exact Except.noConfusion h
        | some f =>
          obtain ⟨fns, rows⟩ := f
          cases hgen : env (build_SPL (csv_to_dict fns rows) name) with
          | none =>
            rw [generate_shape_gen_authfail env now path fns rows name _ _ hb hgen]
            constructor
            · exact ⟨[verify_count_query name], by simp [expected_queries, hchk, hie]⟩
            · intro h
              exact Except.noConfusion h
          | some ges =>
            cases hver : env (verify_count_query name) with
            | none =>
              rw [generate_shape_verify_authfail env now path fns rows name _ _ ges
                hb hgen hver]
              constructor
              · exact ⟨[], by simp [expected_queries, hchk, hie]⟩
              · intro h
                exact Except.noConfusion h
            | some ves =>
              rw [generate_shape_ok env now path fns rows name _ _ ges ves hb hgen hver]
              constructor
              · exact ⟨[], by simp [expected_queries, hchk, hie]⟩
              · intro _
                simp [expected_queries, hchk, hie]

def envC6 : Env := fun _ => some [Entry.dict [("count", "3")]]

theorem C6_step_order_witness :
    (generate_lookup envC6 ⟨2024, 1, 2, 3, 4, 5⟩ "cyber_attacks.csv"
        (some (["ip"], [["a"]])) "attacks_lookup.csv").queries
      = expected_queries envC6 ⟨2024, 1, 2, 3, 4, 5⟩ (some (["ip"], [["a"]]))
          "attacks_lookup.csv" :=
  (C6_step_order envC6 ⟨2024, 1, 2, 3, 4, 5⟩ "cyber_attacks.csv"
    (some (["ip"], [["a"]])) "attacks_lookup.csv").2 rfl

/-- C8: for a header-only CSV (zero data rows) every column entry is an empty
list, and `generate_lookup` still submits the (degenerate) generation query,
finishes normally, and reports a row count of zero from the verification
query's response. -/
theorem C8_empty_csv (env : Env) (now : PyDateTime) (path name : String)
    (fns : List String) (Qb Pb : List String) (ges : List Entry)
    (hb : backup_lookup_if_exists env now name = ⟨Qb, Pb, .ok ()⟩)
    (hgen : env (build_SPL (csv_to_dict fns []) name) = some ges)
    (hver : env (verify_count_query name) = some [Entry.dict [("count", "0")]]) :
    (∀ p ∈ csv_to_dict fns [], p.2 = ([] : List String))
    ∧ build_SPL (csv_to_dict fns []) name
        ∈ (generate_lookup env now path (some (fns, [])) name).queries
    ∧ (generate_lookup env now path (some (fns, [])) name).result = .ok ()
    ∧ msg_contains name "0"
        ∈ (generate_lookup env now path (some (fns, [])) name).prints := by
  have hempty : ∀ p ∈ csv_to_dict fns [], p.2 = ([] : List String) := by
    intro p hp
    rw [csv_to_dict_eq] at hp
    rw [List.mem_map] at hp
    obtain ⟨c, _, rfl⟩ := hp
    rfl
  rw [generate_shape_ok env now path fns [] name Qb Pb ges
    [Entry.dict [("count", "0")]] hb hgen hver]
  refine ⟨hempty, by simp, rfl, ?_⟩
  have hrc : row_count_of ([Entry.dict [("count", "0")]].filterMap entryRow) = "0" := rfl
  simp [entryRow, row_count_of]

def envC8 : Env := fun q =>
  if q = verify_count_query "iocs.csv" then some [Entry.dict [("count", "0")]]
  else some []

theorem C8_empty_csv_witness :
    (∀ p ∈ csv_to_dict ["ip", "tag"] [], p.2 = ([] : List String))
    ∧ build_SPL (csv_to_dict ["ip", "tag"] []) "iocs.csv"
        ∈ (generate_lookup envC8 ⟨2024, 1, 2, 3, 4, 5⟩ "empty.csv"
            (some (["ip", "tag"], [])) "iocs.csv").queries
    ∧ (generate_lookup envC8 ⟨2024, 1, 2, 3, 4, 5⟩ "empty.csv"
        (some (["ip", "tag"], [])) "iocs.csv").result = .ok ()
    ∧ msg_contains "iocs.csv" "0"
        ∈ (generate_lookup envC8 ⟨2024, 1, 2, 3, 4, 5⟩ "empty.csv"
            (some (["ip", "tag"], [])) "iocs.csv").prints :=
  C8_empty_csv envC8 ⟨2024, 1, 2, 3, 4, 5⟩ "empty.csv" "iocs.csv" ["ip", "tag"]
    [backup_check_query "iocs.csv"]
    [msg_checking "iocs.csv", exec_print (backup_check_query "iocs.csv"),
     msg_success 0, msg_nodata "iocs.csv"]
    []
    (backup_shape_empty envC8 ⟨2024, 1, 2, 3, 4, 5⟩ "iocs.csv" [] (by decide) rfl)
    (by decide) (by decide)
